import Mathlib

/-!
Verification of the clipboard-history engine of Clipboard Pro
(src/ClipboardPro.py): content hashing, dedup, the ordered history store,
the search filter, write-back suppression, and resource cleanup.

The Python source is shallowly embedded: the `Clipboard` widget's mutable
fields become the `ClipState` record, the Qt clipboard device becomes the
`ClipboardDevice` record, Qt images become `PyImage`, list items
(`ImageListWidgetItem`) become `Item`, and the methods `addItem`,
`checkClipboardChanges`, `onClipboardChanged`, `selectItem`, `clearList`,
`filterItems`, `showAllItems` and the edit logic of `editItem` become pure
functions of the same names.  Filesystem effects (image save / delete /
exists) are modelled by an explicit association list of saved files plus
per-call success flags (`Env.saveOk`, the `ok` predicate of `clearList`),
since `QImage.save` and `os.remove` report failure without raising in the
guarded code paths.
-/

namespace ClipboardPro

/-- A Qt image (`QImage`) as read from the clipboard: dimensions, pixel
format (`QImage.format()`, an enum modelled as a `Nat`) and the actual
pixel bytes. -/
structure PyImage where
  width : Nat
  height : Nat
  format : Nat
  bytes : List Nat
  deriving DecidableEq

/-- The state of the OS clipboard as the program reads it: `CB.text()`,
`mimeData.hasText()`, `mimeData.hasImage()`, and `CB.image()` (where
`none` models a null `QImage`). -/
structure ClipboardDevice where
  text : String
  hasText : Bool
  hasImage : Bool
  image : Option PyImage
  deriving DecidableEq

/-- One history entry, mirroring `ImageListWidgetItem.__init__`:
`text_content`, `image_path`, and the source's `is_image` flag
(named `isImg` here). -/
structure Item where
  text_content : String
  image_path : Option String
  isImg : Bool
  deriving DecidableEq

/-- `ImageListWidgetItem.get_content`: the image path for image items
(the source returns `self.image_path`, possibly `None`, modelled as `""`),
the text content otherwise. -/
def Item.get_content (it : Item) : String :=
  if it.isImg = true then
    match it.image_path with
    | some p => p
    | none => ""
  else it.text_content

/-- Per-call environment for `addItem`: the fresh image filename produced
from timestamp plus uuid suffix, and whether `image.save(path, "PNG")`
succeeds. -/
structure Env where
  freshName : String
  saveOk : Bool
  deriving DecidableEq

/-- The mutable fields of the `Clipboard` widget that the monitoring and
history engine reads and writes, plus a model of the image file store
(path to saved image bytes) and of the tray label. -/
structure ClipState where
  images_dir : String
  lastClip : String
  lastImageHash : Option String
  lastMimeDataHash : Option String
  selecting_from_app : Bool
  all_items : List Item
  fs : List (String × PyImage)
  tray_last_content : String
  deriving DecidableEq

/-- The state right after `initUI`: empty history, `lastClip = ''`,
`lastImageHash = None`, `lastMimeDataHash = None`, detection enabled. -/
def initState : ClipState :=
  { images_dir := "clipboard_images"
    lastClip := ""
    lastImageHash := none
    lastMimeDataHash := none
    selecting_from_app := false
    all_items := []
    fs := []
    tray_last_content := "" }

/-- The image fingerprint the source computes in `addItem`,
`_getMimeDataHash` and `selectItem`:
`f"{image.width()}_{image.height()}_{image.format()}"` — dimensions and
pixel format only, never the pixel bytes. -/
def dimHash (img : PyImage) : String :=
  toString img.width ++ "_" ++ toString img.height ++ "_" ++ toString img.format

/-- `Clipboard._getMimeDataHash`: dimension string for a non-null image,
the text itself for text, `""` otherwise (including the null-image case,
which falls through). -/
def getMimeDataHash (cb : ClipboardDevice) : String :=
  if cb.hasImage = true then
    match cb.image with
    | some img => dimHash img
    | none => ""
  else if cb.hasText = true then cb.text
  else ""

/-- Python whitespace for `str.strip()` (ASCII range): space, tab,
newline, carriage return, vertical tab, form feed. -/
def isPySpace (c : Char) : Bool :=
  c.toNat == 32 || c.toNat == 9 || c.toNat == 10 || c.toNat == 13 ||
    c.toNat == 11 || c.toNat == 12

/-- Python `str.strip()`: drop leading and trailing whitespace. -/
def pyStrip (s : String) : String :=
  String.mk (((s.data.dropWhile isPySpace).reverse.dropWhile isPySpace).reverse)

/-- Python `str.lower()` on the characters of a string. -/
def pyLower (s : String) : String :=
  String.mk (s.data.map Char.toLower)

/-- Does the character list start with the given needle? (helper for
Python's substring operator). -/
def startsWithChars : List Char → List Char → Bool
  | _, [] => true
  | [], _ :: _ => false
  | a :: as, b :: bs => a == b && startsWithChars as bs

/-- Scan for the needle at every position of the haystack. -/
def containsSub (needle : List Char) : List Char → Bool
  | [] => startsWithChars [] needle
  | a :: t => startsWithChars (a :: t) needle || containsSub needle t

/-- Python's `needle in hay` on strings: substring containment. -/
def strContains (hay needle : String) : Bool :=
  containsSub needle.data hay.data

/-- A freshly inserted text item: `ImageListWidgetItem(text=newClip,
is_image=False)`. -/
def mkTextItem (t : String) : Item :=
  { text_content := t, image_path := none, isImg := false }

/-- A freshly inserted image item: filename as text content, full path
`os.path.join(images_dir, image_filename)` as image path. -/
def mkImageItem (dir fn : String) : Item :=
  { text_content := fn, image_path := some (dir ++ "/" ++ fn), isImg := true }

/-- `Clipboard.addItem`, the single ingestion point both detection paths
funnel into.  Image branch: compute the dimension fingerprint, compare to
`lastImageHash`, save the image under a fresh name, insert at the head of
`all_items` and update the hashes only if the save succeeded.  Text
branch: insert at the head if the text differs from `lastClip` and is not
whitespace-only. -/
def addItem (st : ClipState) (cb : ClipboardDevice) (env : Env) : ClipState :=
  if cb.hasImage = true then
    match cb.image with
    | some image =>
      if some (dimHash image) ≠ st.lastImageHash then
        if env.saveOk = true then
          { st with
            all_items :=
              mkImageItem st.images_dir env.freshName :: st.all_items
            fs := (st.images_dir ++ "/" ++ env.freshName, image) :: st.fs
            lastImageHash := some (dimHash image)
            lastMimeDataHash := some (getMimeDataHash cb)
            tray_last_content := "[Image] " ++ env.freshName }
        else st
      else st
    | none => st
  else
    if cb.text ≠ st.lastClip ∧ pyStrip cb.text ≠ "" then
      { st with
        all_items := mkTextItem cb.text :: st.all_items
        lastClip := cb.text
        lastMimeDataHash := some (getMimeDataHash cb)
        tray_last_content := cb.text }
    else st

/-- `Clipboard.onClipboardChanged`: the push-notification path; ignores
the event while a write-back from the app itself is in flight. -/
def onClipboardChanged (st : ClipState) (cb : ClipboardDevice) (env : Env) :
    ClipState :=
  if st.selecting_from_app = true then st else addItem st cb env

/-- `Clipboard.checkClipboardChanges`: the 1-second poll fallback; same
suppression flag, then a cheap change test before calling `addItem`. -/
def checkClipboardChanges (st : ClipState) (cb : ClipboardDevice) (env : Env) :
    ClipState :=
  if st.selecting_from_app = true then st
  else
    if (cb.text ≠ st.lastClip ∧ pyStrip cb.text ≠ "") ∨
        some (getMimeDataHash cb) ≠ st.lastMimeDataHash then
      addItem st cb env
    else st

/-- Look a saved image up by path: models `os.path.exists` plus a
successful `QImage(path)` load. -/
def lookupFile : List (String × PyImage) → String → Option PyImage
  | [], _ => none
  | e :: rest, p => if e.1 = p then some e.2 else lookupFile rest p

/-- `Clipboard.selectItem` on the selected entry: set the
`selecting_from_app` suppression flag, write the entry's content back to
the clipboard device, and update the matching last-seen hash.  The flag
is reset only later by the 100 ms `QTimer.singleShot`
(`resetSuppression`). -/
def selectItem (st : ClipState) (item : Item) : ClipState :=
  if item.isImg = true then
    match item.image_path with
    | some p =>
      if p = "" then { st with selecting_from_app := true }
      else
        match lookupFile st.fs p with
        | some img =>
          { st with
            selecting_from_app := true
            lastImageHash := some (dimHash img) }
        | none => { st with selecting_from_app := true }
    | none => { st with selecting_from_app := true }
  else
    { st with
      selecting_from_app := true
      lastClip := Item.get_content item }

/-- The delayed flag reset scheduled by `selectItem`
(`QTimer.singleShot(100, ...)`). -/
def resetSuppression (st : ClipState) : ClipState :=
  { st with selecting_from_app := false }

/-- One step of the cleanup loop in `Clipboard.clearList`: for an image
item with a truthy path, `os.remove` the file if it exists, swallowing
removal errors (`ok p = false` models a raising `os.remove`). -/
def fsExists : List (String × PyImage) → String → Bool
  | [], _ => false
  | e :: rest, p => if e.1 = p then true else fsExists rest p

/-- Remove every file stored under the given path. -/
def fsRemove : List (String × PyImage) → String → List (String × PyImage)
  | [], _ => []
  | e :: rest, p => if e.1 = p then fsRemove rest p else e :: fsRemove rest p

/-- The guarded `try: if os.path.exists(p): os.remove(p) except: pass`. -/
def tryRemove (ok : String → Bool) (fs : List (String × PyImage))
    (p : String) : List (String × PyImage) :=
  if fsExists fs p = true then
    if ok p = true then fsRemove fs p else fs
  else fs

/-- The per-item body of the cleanup loop in `clearList`. -/
def removeStep (ok : String → Bool) (fs : List (String × PyImage))
    (it : Item) : List (String × PyImage) :=
  if it.isImg = true then
    match it.image_path with
    | some p => if p = "" then fs else tryRemove ok fs p
    | none => fs
  else fs

/-- `Clipboard.clearList`: best-effort deletion of every image item's
backing file, then `all_items.clear()`. -/
def clearList (st : ClipState) (ok : String → Bool) : ClipState :=
  { st with
    all_items := []
    fs := st.all_items.foldl (removeStep ok) st.fs }

/-- The searchable text `filterItems` computes for one item: the
lowercased image path for image items (empty when the path is absent),
the lowercased content for text items. -/
def searchableOf (it : Item) : String :=
  if it.isImg = true then
    match it.image_path with
    | some p => pyLower p
    | none => ""
  else pyLower (Item.get_content it)

/-- The display copy `filterItems` / `showAllItems` build for each item
(`ImageListWidgetItem(...)` with the original's fields). -/
def copyForDisplay (it : Item) : Item :=
  if it.isImg = true then
    { text_content := it.text_content, image_path := it.image_path, isImg := true }
  else
    { text_content := Item.get_content it, image_path := none, isImg := false }

/-- `Clipboard.showAllItems`: rebuild the display list with a copy of
every stored item, in store order. -/
def showAllItems (items : List Item) : List Item :=
  items.map copyForDisplay

/-- The filtering loop of `Clipboard.filterItems` for a non-empty,
already lowercased query. -/
def filterLoop (q : String) : List Item → List Item
  | [] => []
  | it :: rest =>
    if strContains (searchableOf it) q = true then
      copyForDisplay it :: filterLoop q rest
    else filterLoop q rest

/-- `Clipboard.filterItems`: lowercase the query; an empty query shows
everything, otherwise keep the items whose searchable text contains the
query, in store order. -/
def filterItems (raw : String) (items : List Item) : List Item :=
  if pyLower raw = "" then showAllItems items
  else filterLoop (pyLower raw) items

/-- The search contract over display labels, written from the claim's
words for comparison with `filterItems`: the label of an image entry is
its filename (the stored `text_content`), of a text entry its literal
text; keep the entries whose label contains the query case-insensitively,
in order; an empty query returns the store unchanged. -/
def searchKey (it : Item) : String :=
  if it.isImg = true then it.image_path.getD "" else it.text_content

/-- The amended search contract: identical to the claim's contract except
that image entries are matched against their full stored file path. -/
def filterAmended (raw : String) (items : List Item) : List Item :=
  if raw = "" then items
  else items.filter (fun it => strContains (pyLower (searchKey it)) (pyLower raw))

/-- Replace the text of the first non-image item whose content equals the
edited content — the `for original_item in self.all_items: ... break`
loop of `Clipboard.editItem`. -/
def updateFirstText (text2edit t : String) : List Item → List Item
  | [] => []
  | it :: rest =>
    if it.isImg = false ∧ Item.get_content it = text2edit then
      { it with text_content := t } :: rest
    else it :: updateFirstText text2edit t rest

/-- The effect of `Clipboard.editItem` on `all_items`: image items only
trigger `selectItem` (no store mutation); for text items, the edit is
applied only when the dialog was confirmed with a non-empty string. -/
def editItemStore (d : Item) (okPressed : Bool) (t : String)
    (items : List Item) : List Item :=
  if d.isImg = true then items
  else if okPressed = true ∧ t ≠ "" then
    updateFirstText (Item.get_content d) t items
  else items

/-! ### Basic lemmas about the ingestion step -/

/-- A text payload that differs from the last-seen text and is not
whitespace-only is inserted at the head, and exactly the text-related
fields are updated. -/
lemma addItem_text_insert (st : ClipState) (cb : ClipboardDevice) (env : Env)
    (hi : cb.hasImage = false) (hne : cb.text ≠ st.lastClip)
    (hw : pyStrip cb.text ≠ "") :
    addItem st cb env =
      { st with
        all_items := mkTextItem cb.text :: st.all_items
        lastClip := cb.text
        lastMimeDataHash := some (getMimeDataHash cb)
        tray_last_content := cb.text } := by
  unfold addItem
  split
  · next hc => rw [hi] at hc; exact Bool.noConfusion hc
  · split
    · rfl
    · next hc => exact absurd ⟨hne, hw⟩ hc

/-- A text payload equal to the last-seen text, or whitespace-only, is
skipped and the whole state is unchanged. -/
lemma addItem_text_skip (st : ClipState) (cb : ClipboardDevice) (env : Env)
    (hi : cb.hasImage = false)
    (h : ¬(cb.text ≠ st.lastClip ∧ pyStrip cb.text ≠ "")) :
    addItem st cb env = st := by
  unfold addItem
  split
  · next hc => rw [hi] at hc; exact Bool.noConfusion hc
  · simp [h]

/-- An image payload whose dimension fingerprint is new, with a
successful save, is inserted at the head and the image-related fields are
updated. -/
lemma addItem_image_insert (st : ClipState) (cb : ClipboardDevice)
    (env : Env) (image : PyImage)
    (hi : cb.hasImage = true) (him : cb.image = some image)
    (hh : some (dimHash image) ≠ st.lastImageHash)
    (hs : env.saveOk = true) :
    addItem st cb env =
      { st with
        all_items := mkImageItem st.images_dir env.freshName :: st.all_items
        fs := (st.images_dir ++ "/" ++ env.freshName, image) :: st.fs
        lastImageHash := some (dimHash image)
        lastMimeDataHash := some (getMimeDataHash cb)
        tray_last_content := "[Image] " ++ env.freshName } := by
  unfold addItem
  split
  · split
    · next img heq =>
      rw [him] at heq
      injection heq with h
      subst h
      rw [if_pos hh]
    · next heq => rw [him] at heq; exact Option.noConfusion heq
  · next hc => exact absurd hi hc

/-- An image payload whose dimension fingerprint equals the last-seen one
is skipped and the whole state is unchanged. -/
lemma addItem_image_skip (st : ClipState) (cb : ClipboardDevice)
    (env : Env) (image : PyImage)
    (hi : cb.hasImage = true) (him : cb.image = some image)
    (hh : ¬ some (dimHash image) ≠ st.lastImageHash) :
    addItem st cb env = st := by
  unfold addItem
  simp [hi, him, hh]

/-- A failed image save drops the event entirely: no insertion, no hash
update, no state change at all. -/
lemma addItem_save_fail (st : ClipState) (cb : ClipboardDevice) (env : Env)
    (hi : cb.hasImage = true) (hs : env.saveOk = false) :
    addItem st cb env = st := by
  unfold addItem
  simp only [hi, hs]
  split
  · split <;> simp
  · next hc => exact absurd trivial hc

/-- Every `addItem` call either leaves `all_items` unchanged or conses a
single new item onto it. -/
lemma addItem_shape (st : ClipState) (cb : ClipboardDevice) (env : Env) :
    (addItem st cb env).all_items = st.all_items ∨
      ∃ it, (addItem st cb env).all_items = it :: st.all_items := by
  unfold addItem
  split
  · split
    · split
      · split
        · exact Or.inr ⟨_, rfl⟩
        · exact Or.inl rfl
      · exact Or.inl rfl
    · exact Or.inl rfl
  · split
    · exact Or.inr ⟨_, rfl⟩
    · exact Or.inl rfl

/-- `selectItem` never touches the history store. -/
lemma selectItem_all_items (st : ClipState) (item : Item) :
    (selectItem st item).all_items = st.all_items := by
  unfold selectItem
  split
  · split
    · split
      · rfl
      · split <;> rfl
    · rfl
  · rfl

/-- `selectItem` always raises the suppression flag. -/
lemma selectItem_flag (st : ClipState) (item : Item) :
    (selectItem st item).selecting_from_app = true := by
  unfold selectItem
  split
  · split
    · split
      · rfl
      · split <;> rfl
    · rfl
  · rfl

/-- Iterating a function at least once lands on a fixed point of its
first result. -/
lemma iterate_fix_from_one {α : Type} (f : α → α) (x : α)
    (hfix : f (f x) = f x) : ∀ m, f^[m + 1] x = f x := by
  intro m
  induction m with
  | zero => rfl
  | succ k ih =>
    rw [Function.iterate_succ_apply', ih, hfix]

/-! ### Concrete fixtures for witnesses and counterexamples -/

/-- A 2 by 2 image in format 3 with all-zero pixel bytes. -/
def imgA : PyImage := ⟨2, 2, 3, [0, 0, 0, 0]⟩

/-- A 2 by 2 image in format 3 with different pixel bytes. -/
def imgB : PyImage := ⟨2, 2, 3, [9, 9, 9, 9]⟩

/-- Clipboard carrying `imgA`. -/
def cbImgA : ClipboardDevice := ⟨"", false, true, some imgA⟩

/-- Clipboard carrying `imgB`. -/
def cbImgB : ClipboardDevice := ⟨"", false, true, some imgB⟩

/-- Clipboard carrying the text "T". -/
def cbTee : ClipboardDevice := ⟨"T", true, false, none⟩

/-- Clipboard carrying the text "hello". -/
def cbHello : ClipboardDevice := ⟨"hello", true, false, none⟩

/-- Clipboard carrying the text "a". -/
def cbA : ClipboardDevice := ⟨"a", true, false, none⟩

/-- Clipboard carrying the text "b". -/
def cbB : ClipboardDevice := ⟨"b", true, false, none⟩

/-- Clipboard carrying the text "c". -/
def cbC : ClipboardDevice := ⟨"c", true, false, none⟩

/-- Clipboard carrying whitespace-only text. -/
def cbWs : ClipboardDevice := ⟨"   ", true, false, none⟩

/-- A successful save environment producing `imgA.png`. -/
def envA : Env := ⟨"imgA.png", true⟩

/-- A successful save environment producing `imgB.png`. -/
def envB : Env := ⟨"imgB.png", true⟩

/-- An environment whose image save fails. -/
def envFail : Env := ⟨"x.png", false⟩

/-! ### The claims -/

/-- C1: the claim demands that two images of identical width, height and
pixel format but different pixel bytes get different fingerprints and are
both inserted.  The code computes the fingerprint from width, height and
format only, so `imgA` and `imgB` (which differ in their pixel bytes)
collide, and feeding `imgB` right after `imgA` inserts nothing: the code
contradicts the behaviour the spec mandates (spec section 9 itself flags
this dimensions-only hash as the collision-prone variant).  This theorem
evaluates the code at the failing input. -/
theorem c1_image_fingerprint_code_bug :
    imgA ≠ imgB ∧
    dimHash imgA = dimHash imgB ∧
    (addItem (addItem initState cbImgA envA) cbImgB envB).all_items
      = (addItem initState cbImgA envA).all_items ∧
    (addItem initState cbImgA envA).all_items.length = 1 := by
  decide

/-- C2 (counterexample): ingesting text "T", then an image, then "T"
again does NOT insert a second entry for "T" — the third ingestion leaves
the state completely unchanged, because `lastClip` still holds "T" even
though the immediately preceding clipboard content was the image.  The
claim asserts a second "T" entry is inserted; the store stays at the two
entries shown. -/
theorem c2_counterexample :
    addItem (addItem (addItem initState cbTee envA) cbImgA envB) cbTee envA
      = addItem (addItem initState cbTee envA) cbImgA envB ∧
    (addItem (addItem initState cbTee envA) cbImgA envB).all_items
      = [mkImageItem "clipboard_images" "imgB.png", mkTextItem "T"] := by
  decide

/-- C2 (amended): the Monitor deduplicates per content kind, not against
the immediately preceding payload of any kind: a text payload is skipped
exactly when it equals the last-seen text or is whitespace-only, and
consequently ingesting non-whitespace text T, then an image I, then T
again leaves the state unchanged at the third step (no second entry for
T), while T and I are each inserted once. -/
theorem c2_amended_dedup_per_kind (st : ClipState) (cbT cbI : ClipboardDevice)
    (img : PyImage) (e1 e2 e3 : Env)
    (hTi : cbT.hasImage = false) (hTne : cbT.text ≠ st.lastClip)
    (hTw : pyStrip cbT.text ≠ "")
    (hIi : cbI.hasImage = true) (hIim : cbI.image = some img)
    (hIh : some (dimHash img) ≠ st.lastImageHash) (hIs : e2.saveOk = true) :
    (∀ s c e, c.hasImage = false →
      ((addItem s c e).all_items = s.all_items ↔
        ¬(c.text ≠ s.lastClip ∧ pyStrip c.text ≠ ""))) ∧
    addItem (addItem (addItem st cbT e1) cbI e2) cbT e3
      = addItem (addItem st cbT e1) cbI e2 ∧
    (addItem (addItem st cbT e1) cbI e2).all_items.length
      = st.all_items.length + 2 := by
  have h1 := addItem_text_insert st cbT e1 hTi hTne hTw
  have h2 := addItem_image_insert (addItem st cbT e1) cbI e2 img hIi hIim
    (by rw [h1]; exact hIh) hIs
  refine ⟨?_, ?_, ?_⟩
  · intro s c e hc
    constructor
    · intro heq
      by_contra hcond
      have hins := addItem_text_insert s c e hc hcond.1 hcond.2
      rw [hins] at heq
      exact List.cons_ne_self _ _ heq
    · intro hcond
      rw [addItem_text_skip s c e hc hcond]
  · apply addItem_text_skip _ _ _ hTi
    intro hcon
    exact hcon.1 (by rw [h2, h1])
  · rw [h2, h1]
    rfl

/-- C2 (amended) witness: text "T", image, text "T" at concrete inputs. -/
theorem c2_amended_witness :
    addItem (addItem (addItem initState cbTee envA) cbImgA envB) cbTee envA
      = addItem (addItem initState cbTee envA) cbImgA envB ∧
    (addItem (addItem initState cbTee envA) cbImgA envB).all_items.length
      = 2 := by
  have h := c2_amended_dedup_per_kind initState cbTee cbImgA imgA envA envB
    envA rfl (by decide) (by decide) rfl rfl (by decide) rfl
  exact ⟨h.2.1, h.2.2⟩

/-- C3: feeding the same non-whitespace text N ≥ 2 times consecutively
(starting from a state whose last-seen text differs) yields exactly one
insertion, on both the push-notification funnel (`addItem`) and the poll
path (`checkClipboardChanges`): the store afterwards is the single new
entry on top of the original store. -/
theorem c3_dedup_idempotence (st : ClipState) (cb : ClipboardDevice)
    (env : Env) (n : Nat) (hn : 2 ≤ n) (hi : cb.hasImage = false)
    (hne : cb.text ≠ st.lastClip) (hw : pyStrip cb.text ≠ "")
    (hsel : st.selecting_from_app = false) :
    ((fun s => addItem s cb env)^[n] st).all_items
      = mkTextItem cb.text :: st.all_items ∧
    ((fun s => checkClipboardChanges s cb env)^[n] st).all_items
      = mkTextItem cb.text :: st.all_items := by
  obtain ⟨m, rfl⟩ : ∃ m, n = m + 1 := ⟨n - 1, by omega⟩
  have h1 := addItem_text_insert st cb env hi hne hw
  have hfix : addItem (addItem st cb env) cb env = addItem st cb env := by
    apply addItem_text_skip _ _ _ hi
    intro hcon
    exact hcon.1 (by rw [h1])
  have hc1 : checkClipboardChanges st cb env = addItem st cb env := by
    unfold checkClipboardChanges
    rw [hsel]
    simp only [Bool.false_eq_true, if_false]
    rw [if_pos (Or.inl ⟨hne, hw⟩)]
  have hcfix : checkClipboardChanges (addItem st cb env) cb env
      = addItem st cb env := by
    have f1 : (addItem st cb env).selecting_from_app = false := by
      rw [h1]; exact hsel
    have f2 : (addItem st cb env).lastClip = cb.text := by rw [h1]
    have f3 : (addItem st cb env).lastMimeDataHash
        = some (getMimeDataHash cb) := by rw [h1]
    unfold checkClipboardChanges
    rw [f1]
    simp only [Bool.false_eq_true, if_false]
    rw [f2, f3]
    rw [if_neg (by simp)]
  constructor
  · rw [iterate_fix_from_one _ _ hfix m]
    show (addItem st cb env).all_items = _
    rw [h1]
  · have hfix2 : checkClipboardChanges (checkClipboardChanges st cb env) cb env
        = checkClipboardChanges st cb env := by
      rw [hc1, hcfix]
    rw [iterate_fix_from_one _ _ hfix2 m]
    show (checkClipboardChanges st cb env).all_items = _
    rw [hc1, h1]

/-- C3 witness: "hello" fed twice from the initial state yields exactly
one entry, on both paths. -/
theorem c3_dedup_idempotence_witness :
    ((fun s => addItem s cbHello envA)^[2] initState).all_items
      = [mkTextItem "hello"] ∧
    ((fun s => checkClipboardChanges s cbHello envA)^[2] initState).all_items
      = [mkTextItem "hello"] :=
  c3_dedup_idempotence initState cbHello envA 2 (by decide) rfl
    (by decide) (by decide) rfl

/-- C4: write-back then immediate change-notification never duplicates:
`selectItem` (the SelectionBridge write-back) never touches the store,
and a change-notification delivered while the `selecting_from_app` flag
is still set — in particular one carrying exactly the written-back
content, before the 100 ms reset fires — is ignored, so the store after
the notification equals the store before the write-back, for every entry
and every notification payload. -/
theorem c4_writeback_suppression (st : ClipState) (item : Item)
    (cb : ClipboardDevice) (env : Env) :
    (selectItem st item).all_items = st.all_items ∧
    (onClipboardChanged (selectItem st item) cb env).all_items
      = st.all_items := by
  refine ⟨selectItem_all_items st item, ?_⟩
  unfold onClipboardChanged
  rw [selectItem_flag st item]
  rw [if_pos (Eq.refl true)]
  exact selectItem_all_items st item

/-- C5: a failed image save is a dropped event: the state — store,
hashes, everything — is exactly what it was, no exception escapes (the
embedding is a total function on the `saveOk = false` branch), and since
`lastImageHash` kept its old value the very same payload is inserted on
the next detection cycle once saving succeeds. -/
theorem c5_failed_image_save (st : ClipState) (cb : ClipboardDevice)
    (img : PyImage) (env envR : Env)
    (hi : cb.hasImage = true) (him : cb.image = some img)
    (hfail : env.saveOk = false) :
    addItem st cb env = st ∧
    (envR.saveOk = true → some (dimHash img) ≠ st.lastImageHash →
      (addItem (addItem st cb env) cb envR).all_items
        = mkImageItem st.images_dir envR.freshName :: st.all_items) := by
  have h0 := addItem_save_fail st cb env hi hfail
  refine ⟨h0, fun hok hh => ?_⟩
  rw [h0]
  rw [addItem_image_insert st cb envR img hi him hh hok]

/-- C5 witness: a failed save of `imgA` from the initial state changes
nothing, and retrying with a working save inserts the image. -/
theorem c5_failed_image_save_witness :
    addItem initState cbImgA envFail = initState ∧
    (addItem (addItem initState cbImgA envFail) cbImgA envA).all_items
      = [mkImageItem "clipboard_images" "imgA.png"] := by
  have h := c5_failed_image_save initState cbImgA imgA envFail envA rfl rfl rfl
  exact ⟨h.1, h.2 rfl (by decide)⟩

/-- C6: every ingestion either leaves the store unchanged or puts exactly
one new entry at index 0 with the whole previous store as the unchanged
tail, and inserting three pairwise-adjacent-distinct texts E1 then E2
then E3 yields [E3, E2, E1] on top of the original store. -/
theorem c6_insert_order (st : ClipState) (cb1 cb2 cb3 : ClipboardDevice)
    (env : Env)
    (h1i : cb1.hasImage = false) (h2i : cb2.hasImage = false)
    (h3i : cb3.hasImage = false)
    (h1 : cb1.text ≠ st.lastClip) (h1w : pyStrip cb1.text ≠ "")
    (h12 : cb2.text ≠ cb1.text) (h2w : pyStrip cb2.text ≠ "")
    (h23 : cb3.text ≠ cb2.text) (h3w : pyStrip cb3.text ≠ "") :
    (∀ s c e, (addItem s c e).all_items = s.all_items ∨
      ∃ it, (addItem s c e).all_items = it :: s.all_items) ∧
    (addItem (addItem (addItem st cb1 env) cb2 env) cb3 env).all_items
      = mkTextItem cb3.text :: mkTextItem cb2.text :: mkTextItem cb1.text
          :: st.all_items := by
  refine ⟨fun s c e => addItem_shape s c e, ?_⟩
  have e1 := addItem_text_insert st cb1 env h1i h1 h1w
  have e2 := addItem_text_insert (addItem st cb1 env) cb2 env h2i
    (by rw [e1]; exact h12) h2w
  have e3 := addItem_text_insert (addItem (addItem st cb1 env) cb2 env) cb3
    env h3i (by rw [e2]; exact h23) h3w
  rw [e3, e2, e1]

/-- C6 witness: inserting "a", "b", "c" into the empty store yields
["c", "b", "a"]. -/
theorem c6_insert_order_witness :
    (addItem (addItem (addItem initState cbA envA) cbB envA) cbC envA).all_items
      = [mkTextItem "c", mkTextItem "b", mkTextItem "a"] :=
  (c6_insert_order initState cbA cbB cbC envA rfl rfl rfl (by decide)
    (by decide) (by decide) (by decide) (by decide) (by decide)).2

/-- C8: empty or whitespace-only text is never inserted: on the direct
ingestion funnel, the push-notification path and the poll path alike, the
state (and hence the store) is unchanged. -/
theorem c8_whitespace_guard (st : ClipState) (cb : ClipboardDevice)
    (env : Env) (hi : cb.hasImage = false) (hws : pyStrip cb.text = "") :
    addItem st cb env = st ∧ onClipboardChanged st cb env = st ∧
    checkClipboardChanges st cb env = st := by
  have ha : addItem st cb env = st :=
    addItem_text_skip st cb env hi (fun hcon => hcon.2 hws)
  refine ⟨ha, ?_, ?_⟩
  · unfold onClipboardChanged
    split
    · rfl
    · exact ha
  · unfold checkClipboardChanges
    split
    · rfl
    · split
      · exact ha
      · rfl

/-- C8 witness: the three-space string changes nothing from the initial
state on any path. -/
theorem c8_whitespace_guard_witness :
    addItem initState cbWs envA = initState ∧
    onClipboardChanged initState cbWs envA = initState ∧
    checkClipboardChanges initState cbWs envA = initState :=
  c8_whitespace_guard initState cbWs envA rfl (by decide)

/-! ### Clearing the store (C9) -/

/-- Removing a path removes every file stored under it. -/
lemma fsExists_fsRemove_self (fs : List (String × PyImage)) (p : String) :
    fsExists (fsRemove fs p) p = false := by
  induction fs with
  | nil => rfl
  | cons e rest ih =>
    show fsExists (if e.1 = p then fsRemove rest p else e :: fsRemove rest p) p
      = false
    by_cases h : e.1 = p
    · rw [if_pos h]; exact ih
    · rw [if_neg h]
      show (if e.1 = p then true else fsExists (fsRemove rest p) p) = false
      rw [if_neg h]
      exact ih

/-- Removing one path never materialises another. -/
lemma fsExists_fsRemove_mono (p q : String) :
    ∀ fs : List (String × PyImage), fsExists fs q = false →
      fsExists (fsRemove fs p) q = false := by
  intro fs
  induction fs with
  | nil => intro _; rfl
  | cons e rest ih =>
    intro h
    have hq : ¬ e.1 = q := by
      intro hq
      have : fsExists (e :: rest) q = true := by
        show (if e.1 = q then true else fsExists rest q) = true
        rw [if_pos hq]
      rw [this] at h
      exact Bool.noConfusion h
    have hrest : fsExists rest q = false := by
      have := h
      show fsExists rest q = false
      rw [show fsExists (e :: rest) q = fsExists rest q from by
        show (if e.1 = q then true else fsExists rest q) = _
        rw [if_neg hq]] at this
      exact this
    show fsExists (if e.1 = p then fsRemove rest p else e :: fsRemove rest p) q
      = false
    by_cases hp : e.1 = p
    · rw [if_pos hp]; exact ih hrest
    · rw [if_neg hp]
      show (if e.1 = q then true else fsExists (fsRemove rest p) q) = false
      rw [if_neg hq]
      exact ih hrest

/-- The guarded removal never materialises files. -/
lemma fsExists_tryRemove_mono (ok : String → Bool) (p q : String)
    (fs : List (String × PyImage)) (h : fsExists fs q = false) :
    fsExists (tryRemove ok fs p) q = false := by
  unfold tryRemove
  by_cases hf : fsExists fs p = true
  · rw [if_pos hf]
    by_cases hk : ok p = true
    · rw [if_pos hk]; exact fsExists_fsRemove_mono p q fs h
    · rw [if_neg hk]; exact h
  · rw [if_neg hf]; exact h

/-- When the removal call succeeds, the file is gone afterwards. -/
lemma fsExists_tryRemove_self (ok : String → Bool) (p : String)
    (fs : List (String × PyImage)) (hok : ok p = true) :
    fsExists (tryRemove ok fs p) p = false := by
  unfold tryRemove
  by_cases hf : fsExists fs p = true
  · rw [if_pos hf, if_pos hok]
    exact fsExists_fsRemove_self fs p
  · rw [if_neg hf]
    cases hfp : fsExists fs p with
    | false => rfl
    | true => exact absurd hfp hf

/-- For an image item with a usable path, the cleanup step is exactly the
guarded removal of that path. -/
lemma removeStep_eq (ok : String → Bool) (fs : List (String × PyImage))
    (it : Item) (p : String)
    (hi : it.isImg = true) (hp : it.image_path = some p) (hne : p ≠ "") :
    removeStep ok fs it = tryRemove ok fs p := by
  unfold removeStep
  rw [hi, hp]
  rw [if_pos (Eq.refl true)]
  show (if p = "" then fs else tryRemove ok fs p) = tryRemove ok fs p
  rw [if_neg hne]

/-- The cleanup step never materialises files. -/
lemma fsExists_removeStep_mono (ok : String → Bool) (q : String)
    (fs : List (String × PyImage)) (it : Item)
    (h : fsExists fs q = false) :
    fsExists (removeStep ok fs it) q = false := by
  unfold removeStep
  split
  · split
    · split
      · exact h
      · exact fsExists_tryRemove_mono ok _ q fs h
    · exact h
  · exact h

/-- The cleanup loop never materialises files. -/
lemma fsExists_foldl_mono (ok : String → Bool) (q : String) :
    ∀ (l : List Item) (fs : List (String × PyImage)),
      fsExists fs q = false →
      fsExists (List.foldl (removeStep ok) fs l) q = false := by
  intro l
  induction l with
  | nil => intro fs h; exact h
  | cons hd tl ih =>
    intro fs h
    rw [List.foldl_cons]
    exact ih _ (fsExists_removeStep_mono ok q fs hd h)

/-- After the cleanup loop, the backing file of every image item in the
list with a usable, removable path has been deleted. -/
lemma fsExists_foldl_deletes (ok : String → Bool) :
    ∀ (l : List Item) (fs : List (String × PyImage)) (it : Item) (p : String),
      it ∈ l → it.isImg = true → it.image_path = some p → p ≠ "" →
      ok p = true →
      fsExists (List.foldl (removeStep ok) fs l) p = false := by
  intro l
  induction l with
  | nil => intro fs it p hmem; cases hmem
  | cons hd tl ih =>
    intro fs it p hmem hi hp hne hok
    rw [List.foldl_cons]
    rcases List.mem_cons.mp hmem with heq | htl
    · subst heq
      rw [removeStep_eq ok fs it p hi hp hne]
      exact fsExists_foldl_mono ok p tl _
        (fsExists_tryRemove_self ok p fs hok)
    · exact ih _ it p htl hi hp hne hok

/-- C9: after `clear()` the store iterates to the empty sequence, and the
backing file of every Image entry has been deleted — modulo the
best-effort policy the claim itself carves out: a file that was already
absent is skipped silently, and a failing `os.remove` (`ok p = false`) is
swallowed rather than surfaced, the function in either case returning
normally (it is total). -/
theorem c9_clear_cleans (st : ClipState) (ok : String → Bool) :
    (clearList st ok).all_items = [] ∧
    (∀ it, it ∈ st.all_items → it.isImg = true →
      ∀ p, it.image_path = some p → p ≠ "" → ok p = true →
        fsExists (clearList st ok).fs p = false) := by
  refine ⟨rfl, fun it hmem hi p hp hne hok => ?_⟩
  show fsExists (st.all_items.foldl (removeStep ok) st.fs) p = false
  exact fsExists_foldl_deletes ok st.all_items st.fs it p hmem hi hp hne hok

/-- A store holding one saved image, for the C9 witness. -/
def stImg : ClipState :=
  { initState with
    all_items := [mkImageItem "clipboard_images" "a.png"]
    fs := [("clipboard_images/a.png", imgA)] }

/-- A filesystem where every removal succeeds. -/
def okAll : String → Bool := fun _ => true

/-- C9 witness: clearing a one-image store empties it and deletes the
backing file. -/
theorem c9_clear_cleans_witness :
    (clearList stImg okAll).all_items = [] ∧
    fsExists (clearList stImg okAll).fs "clipboard_images/a.png" = false := by
  have h := c9_clear_cleans stImg okAll
  refine ⟨h.1, ?_⟩
  exact h.2 (mkImageItem "clipboard_images" "a.png") (by decide) rfl
    "clipboard_images/a.png" (by decide) (by decide) rfl

/-! ### The search filter (C7) -/

/-- The display copy equals the original for well-formed items (text
items carry no image path, as every item built by the code does). -/
lemma copyForDisplay_eq (it : Item)
    (hwf : it.isImg = false → it.image_path = none) :
    copyForDisplay it = it := by
  unfold copyForDisplay
  cases it with
  | mk t ip im =>
    cases im with
    | true => rfl
    | false =>
      have hip : ip = none := hwf rfl
      subst hip
      rfl

/-- `showAllItems` is the identity on well-formed stores. -/
lemma showAllItems_eq : ∀ items : List Item,
    (∀ it ∈ items, it.isImg = false → it.image_path = none) →
    showAllItems items = items := by
  intro items
  induction items with
  | nil => intro _; rfl
  | cons hd tl ih =>
    intro hwf
    show copyForDisplay hd :: showAllItems tl = hd :: tl
    rw [copyForDisplay_eq hd (hwf hd (List.mem_cons_self hd tl)),
      ih (fun it hit => hwf it (List.mem_cons_of_mem hd hit))]

/-- The searchable text the code computes is the lowercased search key of
the amended contract. -/
lemma searchableOf_eq (it : Item) :
    searchableOf it = pyLower (searchKey it) := by
  unfold searchableOf searchKey
  cases it with
  | mk t ip im =>
    cases im with
    | false => rfl
    | true =>
      cases ip with
      | none => rfl
      | some p => rfl

/-- The filtering loop is `List.filter` over the amended match predicate,
on well-formed stores. -/
lemma filterLoop_eq : ∀ (q : String) (items : List Item),
    (∀ it ∈ items, it.isImg = false → it.image_path = none) →
    filterLoop q items
      = items.filter (fun it => strContains (pyLower (searchKey it)) q) := by
  intro q items
  induction items with
  | nil => intro _; rfl
  | cons hd tl ih =>
    intro hwf
    show (if strContains (searchableOf hd) q = true then
        copyForDisplay hd :: filterLoop q tl
      else filterLoop q tl) = _
    rw [searchableOf_eq hd]
    by_cases hc : strContains (pyLower (searchKey hd)) q = true
    · rw [if_pos hc,
        copyForDisplay_eq hd (hwf hd (List.mem_cons_self hd tl)),
        ih (fun it hit => hwf it (List.mem_cons_of_mem hd hit))]
      rw [List.filter_cons, if_pos hc]
    · rw [if_neg hc,
        ih (fun it hit => hwf it (List.mem_cons_of_mem hd hit))]
      rw [List.filter_cons, if_neg hc]

/-- Lowercasing preserves emptiness. -/
lemma pyLower_eq_empty (s : String) : pyLower s = "" ↔ s = "" := by
  constructor
  · intro h
    have h2 : s.data.map Char.toLower = [] := congrArg String.data h
    have h3 : s.data = [] := by
      cases hd : s.data with
      | nil => rfl
      | cons a l =>
        rw [hd] at h2
        exact absurd h2 (by simp)
    cases s with
    | mk d =>
      rw [show d = [] from h3]
  · intro h
    subst h
    rfl

/-- C7 (amended): the code's filter implements exactly the claimed
contract with one correction — an Image entry is matched against its full
stored file path, not just its filename: case-insensitive substring
match, store order preserved, empty query returning the store unchanged
(stated for well-formed stores, whose text entries carry no image
path, as every store the code builds). -/
theorem c7_amended_search (raw : String) (items : List Item)
    (hwf : ∀ it ∈ items, it.isImg = false → it.image_path = none) :
    filterItems raw items = filterAmended raw items := by
  unfold filterItems filterAmended
  by_cases hr : raw = ""
  · subst hr
    rw [if_pos (show pyLower "" = "" from rfl), if_pos rfl]
    exact showAllItems_eq items hwf
  · rw [if_neg (fun hc => hr ((pyLower_eq_empty raw).mp hc)), if_neg hr]
    exact filterLoop_eq (pyLower raw) items hwf

/-- C7 (amended) witness: the claim's own concrete example — query
"apple" over ["apple pie", "banana", "Apple sauce"] returns
["apple pie", "Apple sauce"] in order. -/
theorem c7_amended_search_witness :
    filterItems "apple"
      [mkTextItem "apple pie", mkTextItem "banana", mkTextItem "Apple sauce"]
      = [mkTextItem "apple pie", mkTextItem "Apple sauce"] := by
  rw [c7_amended_search "apple" _ (by decide)]
  decide

/-- An image item whose filename differs from its directory prefix, for
the C7 counterexample. -/
def imgItemP : Item :=
  ⟨"clipboard_image_1.png", some "/app/clipboard_images/clipboard_image_1.png",
    true⟩

/-- C7 (counterexample): the claim says the filter returns exactly the
entries whose display label — the image filename for Image entries —
contains the query.  Querying "images" returns this image entry (the
code matches the full path, whose directory component contains
"images"), yet its display label "clipboard_image_1.png" does not contain
"images": the claim as stated is false. -/
theorem c7_counterexample :
    filterItems "images" [imgItemP] = [imgItemP] ∧
    strContains (pyLower imgItemP.text_content) (pyLower "images") = false := by
  decide

/-! ### Editing entries (C10) -/

/-- The edit loop rewrites exactly the first matching text item, in
place, leaving every other entry and every other field untouched. -/
lemma updateFirstText_app : ∀ (pre : List Item) (c t : String) (e : Item)
    (post : List Item),
    (∀ j ∈ pre, ¬(j.isImg = false ∧ Item.get_content j = c)) →
    e.isImg = false → Item.get_content e = c →
    updateFirstText c t (pre ++ e :: post)
      = pre ++ { e with text_content := t } :: post := by
  intro pre
  induction pre with
  | nil =>
    intro c t e post _ he hec
    show (if e.isImg = false ∧ Item.get_content e = c then
        { e with text_content := t } :: post
      else e :: updateFirstText c t post) = _
    rw [if_pos ⟨he, hec⟩]
    rfl
  | cons j pre ih =>
    intro c t e post hpre he hec
    show (if j.isImg = false ∧ Item.get_content j = c then
        { j with text_content := t } :: (pre ++ e :: post)
      else j :: updateFirstText c t (pre ++ e :: post)) = _
    rw [if_neg (hpre j (List.mem_cons_self j pre))]
    rw [ih c t e post (fun k hk => hpre k (List.mem_cons_of_mem j hk)) he hec]
    rfl

/-- C10 (amended): edit on an Image-kind entry never mutates the store
(no error escapes: the function is total); confirming the edit dialog
with an empty string is likewise a no-op; and for a Text entry, editing
with a non-empty string replaces the text of the first Text entry whose
content equals the edited content, in place — position, the entry's other
fields and the rest of the store are all preserved. -/
theorem c10_amended_edit (pre post : List Item) (e d : Item) (t : String)
    (hd : d.isImg = false) (he : e.isImg = false)
    (hmatch : Item.get_content e = Item.get_content d)
    (hpre : ∀ j ∈ pre, j.isImg = false →
      Item.get_content j ≠ Item.get_content d)
    (ht : t ≠ "") :
    (∀ items d0 ok u, d0.isImg = true → editItemStore d0 ok u items = items) ∧
    (∀ items d0 ok, editItemStore d0 ok "" items = items) ∧
    editItemStore d true t (pre ++ e :: post)
      = pre ++ { e with text_content := t } :: post := by
  refine ⟨?_, ?_, ?_⟩
  · intro items d0 ok u h0
    unfold editItemStore
    rw [if_pos h0]
  · intro items d0 ok
    unfold editItemStore
    by_cases h0 : d0.isImg = true
    · rw [if_pos h0]
    · rw [if_neg h0, if_neg (fun hcon => hcon.2 rfl)]
  · unfold editItemStore
    have hd2 : ¬ d.isImg = true := by rw [hd]; exact Bool.noConfusion
    rw [if_neg hd2, if_pos ⟨rfl, ht⟩]
    exact updateFirstText_app pre (Item.get_content d) t e post
      (fun j hj hcon => hpre j hj hcon.1 hcon.2) he hmatch

/-- C10 (counterexample): the claim says `edit_text` on a Text entry
replaces its content in place, for every new text; but confirming the
edit dialog with the empty string leaves the store — and the entry's
content — unchanged, so the claim as stated fails at new text `""`. -/
theorem c10_counterexample :
    editItemStore (mkTextItem "hello") true "" [mkTextItem "hello"]
      = [mkTextItem "hello"] ∧
    (mkTextItem "hello").text_content ≠ "" := by
  decide

/-- C10 (amended) witness: an image-entry edit leaves the store alone,
and a confirmed non-empty text edit replaces the matching text entry in
place behind the untouched image entry. -/
theorem c10_amended_edit_witness :
    editItemStore (mkTextItem "hello") true "world"
      [mkImageItem "clipboard_images" "a.png", mkTextItem "hello"]
      = [mkImageItem "clipboard_images" "a.png", mkTextItem "world"] ∧
    editItemStore (mkImageItem "clipboard_images" "a.png") true "zzz"
      [mkImageItem "clipboard_images" "a.png", mkTextItem "hello"]
      = [mkImageItem "clipboard_images" "a.png", mkTextItem "hello"] := by
  have h := c10_amended_edit [mkImageItem "clipboard_images" "a.png"] []
    (mkTextItem "hello") (mkTextItem "hello") "world" rfl rfl rfl
    (by decide) (by decide)
  exact ⟨h.2.2, h.1 _ _ true "zzz" rfl⟩

end ClipboardPro
